import Mathlib

/-!
Shallow embedding of the `jira-stale-checker.py` core logic (JIRA stale issue
checker) and verification of its specified properties.

Modelling conventions:
- Python strings are modelled as `List Char` (`Str`); string manipulation
  helpers (`toLowerStr`, `trimStr`, `words`, ...) mirror the Python operations
  used by the source (`str.lower`, `str.strip`, splitting on whitespace).
- Timestamps are modelled as absolute instants: an integer count of seconds on
  the UTC timeline.  Every timezone-aware Python `datetime` the program builds
  denotes such an instant, and `datetime` comparison coincides with instant
  comparison.
- Python dicts used as string-keyed mappings are modelled as association lists
  where insertion prepends and lookup takes the first (most recent) binding,
  which reproduces the dict's last-write-wins lookup semantics.
- Fallible operations return `Option`/`Except`; the external JIRA calls are
  passed in as explicit arguments (a fetch result, a fallback parser).
-/

namespace JiraStale

/-- Python strings, modelled as lists of characters. -/
abbrev Str := List Char

/-- Model of Python `str.lower` (ASCII-adequate for the strings involved). -/
def toLowerStr (s : Str) : Str := s.map Char.toLower

/-- Model of Python `str.strip`: drop whitespace from both ends. -/
def trimStr (s : Str) : Str :=
  ((s.dropWhile Char.isWhitespace).reverse.dropWhile Char.isWhitespace).reverse

/-- Helper for `words`: `cur` holds the reversed current token. -/
def wordsAux (cur : Str) : Str → List Str
  | [] => if cur = [] then [] else [cur.reverse]
  | c :: rest =>
    if c.isWhitespace then
      if cur = [] then wordsAux [] rest else cur.reverse :: wordsAux [] rest
    else wordsAux (c :: cur) rest

/-- Split a string into its maximal whitespace-free tokens.  Matching the
regular expressions `^tok\s+tok\s+tok$` of the source against a stripped
string is equivalent to matching this token list. -/
def words (s : Str) : List Str := wordsAux [] s

/-- Split on a separator character, keeping empty segments (used to model the
fixed-layout ISO date parsing). -/
def splitOnChar (sep : Char) : Str → List Str
  | [] => [[]]
  | c :: rest =>
    if c = sep then [] :: splitOnChar sep rest
    else
      match splitOnChar sep rest with
      | [] => [[c]]
      | t :: ts => (c :: t) :: ts

/-- Model of Python `int(...)` applied to a regex group known to consist of
digits: `some` exactly on nonempty all-digit strings. -/
def digitsToNat (s : Str) : Option Nat :=
  if s ≠ [] ∧ s.all Char.isDigit then
    some (s.foldl (fun n c => n * 10 + (c.toNat - 48)) 0)
  else none

/-- One entry of `history.items`: a field-change item naming the changed
field (`item.field`). -/
structure ChangeItem where
  field : Str
deriving DecidableEq, Repr

/-- One entry of `issue.changelog.histories`: author identity, creation
instant, and the list of field-change items. -/
structure HistoryEntry where
  author : Str
  created : Int
  items : List ChangeItem
deriving DecidableEq, Repr

/-- The slice of a JIRA issue read by `_get_last_meaningful_update`: its
creation instant and its changelog.  An absent changelog is the empty list. -/
structure Issue where
  key : Str
  created : Int
  changelog : List HistoryEntry
deriving DecidableEq, Repr

/-- One result record assembled by `get_issues_with_history` (the fields the
later stages read; `last_meaningful_update` is the computed instant). -/
structure Snapshot where
  key : Str
  summary : Str
  status : Str
  last_meaningful_update : Int
deriving DecidableEq, Repr

/-- One entry of the JIRA field catalog: internal identifier and display
name. -/
structure JiraField where
  id : Str
  name : Str
deriving DecidableEq, Repr

/-- The loop body of `_get_last_meaningful_update`: process one changelog
entry against the running `last_update`.  Entries by excluded users are
skipped whole; an entry advances the result only if some item touches a
non-excluded field and its timestamp is strictly later. -/
def updateStep (exclude_fields exclude_users : List Str) (last_update : Int)
    (history : HistoryEntry) : Int :=
  if exclude_users.contains history.author then last_update
  else if history.items.any (fun item => !(exclude_fields.contains item.field)) then
    if history.created > last_update then history.created else last_update
  else last_update

/-- An entry "qualifies" (counts as meaningful): its author is not excluded
and at least one of its items names a non-excluded field. -/
def entryQualifies (exclude_fields exclude_users : List Str)
    (history : HistoryEntry) : Bool :=
  !(exclude_users.contains history.author)
    && history.items.any (fun item => !(exclude_fields.contains item.field))

/-- `JiraStaleChecker._get_last_meaningful_update`: start from the issue's
creation instant and fold the loop body over the changelog. -/
def _get_last_meaningful_update (issue : Issue)
    (exclude_fields exclude_users : List Str) : Int :=
  issue.changelog.foldl (updateStep exclude_fields exclude_users) issue.created

/-- Field mapping: a Python dict from spelling to canonical identifier,
modelled as an association list (newest binding first). -/
abbrev FieldMapping := List (Str × Str)

/-- Dict lookup: first (most recent) binding wins. -/
def mapGet (mapping : FieldMapping) (k : Str) : Option Str :=
  match mapping with
  | [] => none
  | (k2, v) :: rest => if k2 = k then some v else mapGet rest k

/-- The custom-field identifier marker `customfield_` used by
`startswith` checks in the source. -/
def customMarker : Str := "customfield_".data

/-- The body of `_get_field_mapping`'s loop over the fetched catalog: map the
exact display name and its lowercased form to the field id, and additionally
self-map the id of custom fields. -/
def addField (mapping : FieldMapping) (f : JiraField) : FieldMapping :=
  if customMarker.isPrefixOf f.id then
    (f.id, f.id) :: (toLowerStr f.name, f.id) :: (f.name, f.id) :: mapping
  else (toLowerStr f.name, f.id) :: (f.name, f.id) :: mapping

/-- The catalog-to-mapping construction of `_get_field_mapping`. -/
def buildFieldMapping (fields : List JiraField) : FieldMapping :=
  fields.foldl addField []

/-- `JiraStaleChecker._get_field_mapping`: return the cached mapping if
present; otherwise build it from the catalog fetch, degrading to the empty
mapping when the fetch fails, and cache the result. -/
def _get_field_mapping (fetchResult : Except Str (List JiraField))
    (cache : Option FieldMapping) : FieldMapping × Option FieldMapping :=
  match cache with
  | some mapping => (mapping, some mapping)
  | none =>
    match fetchResult with
    | .ok fields => ((buildFieldMapping fields), some (buildFieldMapping fields))
    | .error _ => ([], some [])

/-- The built-in `standard_fields` alias table of
`_resolve_field_identifiers` (keys are lowercase, so the lowercased lookup is
case-insensitive). -/
def standard_fields : FieldMapping :=
  [("summary".data, "summary".data),
   ("description".data, "description".data),
   ("status".data, "status".data),
   ("assignee".data, "assignee".data),
   ("reporter".data, "reporter".data),
   ("priority".data, "priority".data),
   ("resolution".data, "resolution".data),
   ("labels".data, "labels".data),
   ("comment".data, "comment".data),
   ("attachment".data, "attachment".data),
   ("worklog".data, "worklog".data),
   ("work log".data, "worklog".data),
   ("link".data, "issuelinks".data)]

/-- Loop body of `JiraStaleChecker._resolve_field_identifiers`: append each
resolution to `resolved_fields` (first component) and each miss to
`invalid_fields` (second component).  Branch order as in the source: exact
match, case-insensitive match, `customfield_`-prefixed names kept verbatim,
standard-alias table, otherwise unresolved. -/
def resolveStep (field_mapping : FieldMapping) (acc : List Str × List Str)
    (field : Str) : List Str × List Str :=
  match mapGet field_mapping field with
  | some resolved_id => (acc.1 ++ [resolved_id], acc.2)
  | none =>
    match mapGet field_mapping (toLowerStr field) with
    | some resolved_id => (acc.1 ++ [resolved_id], acc.2)
    | none =>
      if customMarker.isPrefixOf field then (acc.1 ++ [field], acc.2)
      else
        match mapGet standard_fields (toLowerStr field) with
        | some std_id => (acc.1 ++ [std_id], acc.2)
        | none => (acc.1, acc.2 ++ [field])

/-- The fold over the requested names. -/
def _resolve_field_identifiers (field_mapping : FieldMapping)
    (exclude_fields : List Str) : List Str × List Str :=
  exclude_fields.foldl (resolveStep field_mapping) ([], [])

/-- Per-name resolution as the source performs it (first match wins; `none`
means the name ends up in the unresolved list).  Step three accepts any name
that merely starts with `customfield_`. -/
def resolveOne (field_mapping : FieldMapping) (field : Str) : Option Str :=
  match mapGet field_mapping field with
  | some resolved_id => some resolved_id
  | none =>
    match mapGet field_mapping (toLowerStr field) with
    | some resolved_id => some resolved_id
    | none =>
      if customMarker.isPrefixOf field then some field
      else mapGet standard_fields (toLowerStr field)

/-- Per-name resolution as the specification words it: step three accepts a
name verbatim only when it is the custom-field marker followed by DIGITS.
Written from the spec, for comparison with `resolveOne`. -/
def resolveOneClaimed (field_mapping : FieldMapping) (field : Str) : Option Str :=
  match mapGet field_mapping field with
  | some resolved_id => some resolved_id
  | none =>
    match mapGet field_mapping (toLowerStr field) with
    | some resolved_id => some resolved_id
    | none =>
      if customMarker.isPrefixOf field
          ∧ field.drop customMarker.length ≠ []
          ∧ (field.drop customMarker.length).all Char.isDigit then some field
      else mapGet standard_fields (toLowerStr field)

/-- The sort order of `get_issues_with_history`: by
`last_meaningful_update`, most recent first. -/
def staleAfter (a b : Snapshot) : Prop :=
  b.last_meaningful_update ≤ a.last_meaningful_update

instance : DecidableRel staleAfter := fun a b =>
  inferInstanceAs (Decidable (b.last_meaningful_update ≤ a.last_meaningful_update))

instance : IsTotal Snapshot staleAfter :=
  ⟨fun a b => le_total b.last_meaningful_update a.last_meaningful_update⟩

instance : IsTrans Snapshot staleAfter :=
  ⟨fun _ _ _ h1 h2 => le_trans h2 h1⟩

/-- The `results.sort(key=..., reverse=True)` step of
`get_issues_with_history`: a stable sort, descending by
`last_meaningful_update` (insertion sort is stable, like Python's sort). -/
def sortResults (results : List Snapshot) : List Snapshot :=
  results.insertionSort staleAfter

/-- Keep-predicate of `filter_issues_by_date_range`, as computed by its two
`if` statements: excluded when strictly before `since_date` or strictly after
`before_date`. -/
def inDateRange (since_date before_date : Option Int) (issue : Snapshot) : Bool :=
  (match since_date with
   | some s => !decide (issue.last_meaningful_update < s)
   | none => true)
  && (match before_date with
      | some b => !decide (issue.last_meaningful_update > b)
      | none => true)

/-- `filter_issues_by_date_range`: with no bounds the input list is returned
as-is; otherwise keep exactly the snapshots inside the (inclusive) range. -/
def filter_issues_by_date_range (issues : List Snapshot)
    (since_date before_date : Option Int) : List Snapshot :=
  match since_date, before_date with
  | none, none => issues
  | _, _ => issues.filter (inDateRange since_date before_date)

/-- A UTC wall-clock datetime, as built by Python's `datetime` with
`timezone.utc` attached (microseconds are not exercised by the claims). -/
structure PyDateTime where
  year : Int
  month : Nat
  day : Nat
  hour : Nat
  minute : Nat
  second : Nat
deriving DecidableEq, Repr

/-- Gregorian leap-year rule. -/
def isLeapYear (y : Int) : Bool :=
  y % 4 = 0 && (y % 100 ≠ 0 || y % 400 = 0)

/-- Length of a month in the given year. -/
def daysInMonth (y : Int) (m : Nat) : Nat :=
  if m = 2 then (if isLeapYear y then 29 else 28)
  else if m = 4 ∨ m = 6 ∨ m = 9 ∨ m = 11 then 30
  else 31

/-- Day count of a Gregorian calendar date from the Unix epoch (standard
days-from-civil computation; the same ordinal-based arithmetic CPython's
`datetime` uses for day-granularity calculations). -/
def daysFromCivil (y : Int) (m d : Nat) : Int :=
  let y2 : Int := if m ≤ 2 then y - 1 else y
  let era : Int := (if 0 ≤ y2 then y2 else y2 - 399) / 400
  let yoe : Int := y2 - era * 400
  let doy : Int := (153 * ((m : Int) + (if 2 < m then -3 else 9)) + 2) / 5 + (d : Int) - 1
  let doe : Int := yoe * 365 + yoe / 4 - yoe / 100 + doy
  era * 146097 + doe - 719468

/-- The absolute instant (seconds on the UTC timeline) a timezone-aware
datetime denotes. -/
def toInstant (dt : PyDateTime) : Int :=
  daysFromCivil dt.year dt.month dt.day * 86400
    + dt.hour * 3600 + dt.minute * 60 + dt.second

/-- The `relativedelta` values the source constructs: one of the fixed-length
units collapses to a number of seconds; month and year deltas stay calendar
quantities. -/
inductive RelativeDelta where
  | fixed (seconds : Int)
  | months (n : Nat)
  | years (n : Nat)
deriving DecidableEq, Repr

/-- Calendar subtraction of months, as `dateutil.relativedelta` performs it:
shift the (year, month) index and clamp the day to the target month's
length. -/
def subMonths (dt : PyDateTime) (n : Nat) : PyDateTime :=
  let total : Int := dt.year * 12 + ((dt.month : Int) - 1) - (n : Int)
  let y : Int := total.fdiv 12
  let m : Nat := (total - y * 12).toNat + 1
  { dt with year := y, month := m, day := min dt.day (daysInMonth y m) }

/-- Calendar subtraction of years, as `dateutil.relativedelta` performs it:
shift the year and clamp the day (February 29 falls back to 28). -/
def subYears (dt : PyDateTime) (n : Nat) : PyDateTime :=
  let y : Int := dt.year - (n : Int)
  { dt with year := y, day := min dt.day (daysInMonth y dt.month) }

/-- `now - delta` for the deltas the source builds: fixed-length deltas are
absolute-time shifts; month/year deltas go through the calendar. -/
def subDelta (now : PyDateTime) : RelativeDelta → Int
  | .fixed s => toInstant now - s
  | .months n => toInstant (subMonths now n)
  | .years n => toInstant (subYears now n)

/-- Parse and validate the `YYYY-MM-DD` layout. -/
def parseIsoDate (s : Str) : Option (Int × Nat × Nat) :=
  match splitOnChar '-' s with
  | [ys, ms, ds] =>
    if ys.length = 4 ∧ ms.length = 2 ∧ ds.length = 2 then
      match digitsToNat ys, digitsToNat ms, digitsToNat ds with
      | some y, some m, some d =>
        if 1 ≤ m ∧ m ≤ 12 ∧ 1 ≤ d ∧ d ≤ daysInMonth (y : Int) m then
          some ((y : Int), m, d)
        else none
      | _, _, _ => none
    else none
  | _ => none

/-- Parse and validate the `HH:MM:SS` layout. -/
def parseIsoTime (s : Str) : Option (Nat × Nat × Nat) :=
  match splitOnChar ':' s with
  | [hs, ms, ss] =>
    if hs.length = 2 ∧ ms.length = 2 ∧ ss.length = 2 then
      match digitsToNat hs, digitsToNat ms, digitsToNat ss with
      | some h, some mi, some sec =>
        if h ≤ 23 ∧ mi ≤ 59 ∧ sec ≤ 59 then some (h, mi, sec) else none
      | _, _, _ => none
    else none
  | _ => none

/-- Model of Python `datetime.fromisoformat`, restricted to the layouts the
program's callers exercise: a plain `YYYY-MM-DD` calendar date, or a date
plus a one-character separator and a `HH:MM:SS` time.  Anything else (in
particular every relative-date phrase) is rejected, like the strict ISO
parser of the source. -/
def fromisoformat (s : Str) : Option PyDateTime :=
  if s.length = 10 then
    (parseIsoDate s).map (fun ymd => ⟨ymd.1, ymd.2.1, ymd.2.2, 0, 0, 0⟩)
  else if s.length = 19 then
    match parseIsoDate (s.take 10), parseIsoTime (s.drop 11) with
    | some ymd, some hms =>
      some ⟨ymd.1, ymd.2.1, ymd.2.2, hms.1, hms.2.1, hms.2.2⟩
    | _, _ => none
  else none

/-- The unit words of the relative-date grammar. -/
def timeUnits : List Str :=
  ["second".data, "minute".data, "hour".data, "day".data,
   "week".data, "month".data, "year".data]

/-- Match a token against a unit word (singular only, for the `a`/`an`
pattern of the source). -/
def matchUnit (tok : Str) : Option Str :=
  timeUnits.find? (fun u => tok = u)

/-- Match a token against a unit word, optionally pluralized (`s?` in the
first pattern of the source). -/
def matchUnitPlural (tok : Str) : Option Str :=
  timeUnits.find? (fun u => tok = u ∨ tok = u ++ ['s'])

/-- The relative-date grammar of `parse_since_date`, applied to the
lowercased, stripped input: either `<digits> <unit>s? ago` or
`a|an <unit> ago`, yielding the amount and the (singular) unit. -/
def matchRelative (s : Str) : Option (Nat × Str) :=
  match words (trimStr s) with
  | [amountTok, unitTok, agoTok] =>
    if agoTok = "ago".data then
      match digitsToNat amountTok with
      | some n => (matchUnitPlural unitTok).map (fun u => (n, u))
      | none =>
        if amountTok = "a".data ∨ amountTok = "an".data then
          (matchUnit unitTok).map (fun u => (1, u))
        else none
    else none
  | _ => none

/-- The unit-to-`relativedelta` dispatch of `parse_since_date` (the trailing
`else` raising on an unknown unit is modelled by `none`). -/
def unitDelta (unit : Str) (amount : Nat) : Option RelativeDelta :=
  if unit = "second".data then some (.fixed amount)
  else if unit = "minute".data then some (.fixed (amount * 60))
  else if unit = "hour".data then some (.fixed (amount * 3600))
  else if unit = "day".data then some (.fixed (amount * 86400))
  else if unit = "week".data then some (.fixed (amount * 7 * 86400))
  else if unit = "month".data then some (.months amount)
  else if unit = "year".data then some (.years amount)
  else none

/-- `parse_since_date`: reject the empty string, then try strict ISO
parsing, then the relative-date grammar against the current UTC `now`, then
the free-form fallback parser (`dateutil.parser.parse`, passed in as an
explicit function); on total failure report an error carrying the original
input. -/
def parse_since_date (fallback : Str → Option PyDateTime) (now : PyDateTime)
    (since_str : Str) : Except Str Int :=
  if since_str = [] then .error "Empty date string".data
  else
    match fromisoformat since_str with
    | some dt => .ok (toInstant dt)
    | none =>
      match matchRelative (toLowerStr since_str) with
      | some au =>
        match unitDelta au.2 au.1 with
        | some delta => .ok (subDelta now delta)
        | none => .error ("Unknown time unit: ".data ++ au.2)
      | none =>
        match fallback since_str with
        | some dt => .ok (toInstant dt)
        | none =>
          .error ("Could not parse date \x27".data ++ since_str
            ++ "\x27. Use formats like \x27YYYY-MM-DD\x27, \x274 weeks ago\x27, or \x272 years ago\x27.".data)

/-- The `--since`/`--before` handling slice of `main`: parse each given
bound (a parse failure exits with status 1 before any filtering), then apply
the range filter when at least one bound was given. -/
def applyDateFilters (fallback : Str → Option PyDateTime) (now : PyDateTime)
    (issues : List Snapshot) (since_arg before_arg : Option Str) :
    Except Nat (List Snapshot) :=
  match (match since_arg with
         | none => Except.ok (none : Option Int)
         | some s =>
           match parse_since_date fallback now s with
           | .ok d => .ok (some d)
           | .error _ => .error 1) with
  | .error c => .error c
  | .ok since_date =>
    match (match before_arg with
           | none => Except.ok (none : Option Int)
           | some s =>
             match parse_since_date fallback now s with
             | .ok d => .ok (some d)
             | .error _ => .error 1) with
    | .error c => .error c
    | .ok before_date =>
      .ok (match since_date, before_date with
           | none, none => issues
           | _, _ => filter_issues_by_date_range issues since_date before_date)

/-- The loop body equals: take the max with the entry's timestamp when the
entry qualifies, otherwise leave the running result unchanged. -/
theorem updateStep_eq (ef eu : List Str) (a : Int) (h : HistoryEntry) :
    updateStep ef eu a h = if entryQualifies ef eu h then max a h.created else a := by
  by_cases hu : h.author ∈ eu
  · simp [updateStep, entryQualifies, hu]
  · by_cases hm : ∃ x ∈ h.items, x.field ∉ ef
    · simp only [updateStep, entryQualifies, max_def]
      simp [hu, hm]
      split_ifs <;> omega
    · simp [updateStep, entryQualifies, hu, hm]

/-- Folding the loop body computes the max of the start value and the
timestamps of the qualifying entries. -/
theorem foldl_updateStep_eq (ef eu : List Str) :
    ∀ (l : List HistoryEntry) (a : Int),
      l.foldl (updateStep ef eu) a
        = ((l.filter (entryQualifies ef eu)).map HistoryEntry.created).foldl max a := by
  intro l
  induction l with
  | nil => intro a; rfl
  | cons h t ih =>
    intro a
    rw [List.foldl_cons, updateStep_eq]
    by_cases hq : entryQualifies ef eu h = true
    · simp [List.filter_cons, hq, ih]
    · simp [List.filter_cons, hq, ih]

/-- The loop body is commutative across entries. -/
theorem updateStep_comm (ef eu : List Str) (a : Int) (h1 h2 : HistoryEntry) :
    updateStep ef eu (updateStep ef eu a h1) h2
      = updateStep ef eu (updateStep ef eu a h2) h1 := by
  simp only [updateStep_eq]
  by_cases q1 : entryQualifies ef eu h1 = true <;>
    by_cases q2 : entryQualifies ef eu h2 = true <;>
      simp [q1, q2, sup_right_comm]

/-- Folding the loop body is invariant under permutation of the changelog. -/
theorem foldl_updateStep_perm (ef eu : List Str) {l1 l2 : List HistoryEntry}
    (p : l1.Perm l2) :
    ∀ a : Int, l1.foldl (updateStep ef eu) a = l2.foldl (updateStep ef eu) a := by
  induction p with
  | nil => intro a; rfl
  | cons x _ ih => intro a; simp only [List.foldl_cons]; exact ih _
  | swap x y l => intro a; simp only [List.foldl_cons]; rw [updateStep_comm]
  | trans _ _ ih1 ih2 => intro a; rw [ih1 a, ih2 a]

/-- Claim C1: the evaluator returns the maximum over the issue's creation
timestamp and the timestamps of all qualifying history entries (an entry
qualifies iff its author is not excluded and some field-change item names a
non-excluded field); the result is independent of the order of the history
entries; an issue with no history yields exactly its creation timestamp; and
an entry with zero field-change items never qualifies. -/
theorem C1_evaluator_max (issue : Issue) (exclude_fields exclude_users : List Str) :
    _get_last_meaningful_update issue exclude_fields exclude_users
      = ((issue.changelog.filter (entryQualifies exclude_fields exclude_users)).map
          HistoryEntry.created).foldl max issue.created
    ∧ (∀ changelog2 : List HistoryEntry, changelog2.Perm issue.changelog →
        _get_last_meaningful_update ⟨issue.key, issue.created, changelog2⟩
            exclude_fields exclude_users
          = _get_last_meaningful_update issue exclude_fields exclude_users)
    ∧ (issue.changelog = [] →
        _get_last_meaningful_update issue exclude_fields exclude_users = issue.created)
    ∧ (∀ entry : HistoryEntry, entry.items = [] →
        entryQualifies exclude_fields exclude_users entry = false) :=
  ⟨foldl_updateStep_eq _ _ _ _,
   fun _ hp => foldl_updateStep_perm _ _ hp _,
   fun hnil => by simp [_get_last_meaningful_update, hnil],
   fun entry hit => by simp [entryQualifies, hit]⟩

/-- Witness for C1: a two-entry changelog evaluated in both orders, and a
zero-item entry that does not qualify. -/
theorem C1_evaluator_max_witness :
    _get_last_meaningful_update
        ⟨"K".data, 5, [⟨"bob".data, 12, [⟨"labels".data⟩]⟩,
                       ⟨"alice".data, 9, [⟨"status".data⟩]⟩]⟩ [] []
      = _get_last_meaningful_update
          ⟨"K".data, 5, [⟨"alice".data, 9, [⟨"status".data⟩]⟩,
                         ⟨"bob".data, 12, [⟨"labels".data⟩]⟩]⟩ [] []
    ∧ entryQualifies [] [] ⟨"carol".data, 99, []⟩ = false :=
  ⟨(C1_evaluator_max
      ⟨"K".data, 5, [⟨"alice".data, 9, [⟨"status".data⟩]⟩,
                     ⟨"bob".data, 12, [⟨"labels".data⟩]⟩]⟩ [] []).2.1
      [⟨"bob".data, 12, [⟨"labels".data⟩]⟩, ⟨"alice".data, 9, [⟨"status".data⟩]⟩]
      (List.Perm.swap _ _ _),
   (C1_evaluator_max ⟨"X".data, 0, []⟩ [] []).2.2.2 ⟨"carol".data, 99, []⟩ rfl⟩

/-- The loop body never decreases the running result. -/
theorem le_updateStep (ef eu : List Str) (a : Int) (h : HistoryEntry) :
    a ≤ updateStep ef eu a h := by
  unfold updateStep; split_ifs <;> omega

/-- The fold of the loop body never goes below its start value. -/
theorem le_foldl_updateStep (ef eu : List Str) :
    ∀ (l : List HistoryEntry) (a : Int), a ≤ l.foldl (updateStep ef eu) a
  | [], a => le_refl a
  | h :: t, a => le_trans (le_updateStep ef eu a h) (le_foldl_updateStep ef eu t _)

/-- Claim C9: the evaluator's result is never earlier than the issue's
creation timestamp, and each processed history entry either leaves the
running result unchanged or moves it strictly later. -/
theorem C9_lower_bound (issue : Issue) (exclude_fields exclude_users : List Str) :
    issue.created ≤ _get_last_meaningful_update issue exclude_fields exclude_users
    ∧ ∀ (a : Int) (entry : HistoryEntry),
        updateStep exclude_fields exclude_users a entry = a
        ∨ a < updateStep exclude_fields exclude_users a entry := by
  constructor
  · exact le_foldl_updateStep _ _ _ _
  · intro a entry; unfold updateStep; split_ifs <;> omega

/-- With at least one bound present — and also with none — the range filter
agrees with `List.filter` over the keep-predicate. -/
theorem filter_issues_eq_filter (issues : List Snapshot)
    (since_date before_date : Option Int) :
    filter_issues_by_date_range issues since_date before_date
      = issues.filter (inDateRange since_date before_date) := by
  cases since_date <;> cases before_date <;>
    simp [filter_issues_by_date_range, inDateRange] <;>
    exact (List.filter_eq_self.mpr (fun a _ => rfl)).symm

/-- Claim C2: the range filter keeps a snapshot iff it is on or after `since`
(when given) and on or before `before` (when given), both bounds inclusive;
it is a `filter`, hence an order-preserving subsequence; with no bounds the
input list is returned unchanged; and it is idempotent. -/
theorem C2_range_filter (issues : List Snapshot) (since_date before_date : Option Int) :
    (∀ issue : Snapshot, inDateRange since_date before_date issue = true ↔
        ((∀ s, since_date = some s → s ≤ issue.last_meaningful_update)
          ∧ (∀ b, before_date = some b → issue.last_meaningful_update ≤ b)))
    ∧ filter_issues_by_date_range issues since_date before_date
        = issues.filter (inDateRange since_date before_date)
    ∧ (filter_issues_by_date_range issues since_date before_date).Sublist issues
    ∧ filter_issues_by_date_range issues none none = issues
    ∧ filter_issues_by_date_range
        (filter_issues_by_date_range issues since_date before_date)
        since_date before_date
      = filter_issues_by_date_range issues since_date before_date := by
  refine ⟨?_, filter_issues_eq_filter _ _ _, ?_, rfl, ?_⟩
  · intro issue
    cases since_date <;> cases before_date <;> simp [inDateRange] <;> omega
  · rw [filter_issues_eq_filter]
    exact List.filter_sublist _
  · simp [filter_issues_eq_filter, List.filter_filter]

/-- Witness for C2 at concrete bounds and a concrete snapshot list. -/
theorem C2_range_filter_witness :
    filter_issues_by_date_range
        [⟨"A".data, [], [], 3⟩, ⟨"B".data, [], [], 7⟩] none none
      = [⟨"A".data, [], [], 3⟩, ⟨"B".data, [], [], 7⟩]
    ∧ (inDateRange (some 1) (some 5) ⟨"A".data, [], [], 3⟩ = true ↔
        ((∀ s, (some 1 : Option Int) = some s → s ≤ 3)
          ∧ (∀ b, (some 5 : Option Int) = some b → 3 ≤ b))) :=
  ⟨(C2_range_filter [⟨"A".data, [], [], 3⟩, ⟨"B".data, [], [], 7⟩]
      none none).2.2.2.1,
   (C2_range_filter [⟨"A".data, [], [], 3⟩] (some 1) (some 5)).1
      ⟨"A".data, [], [], 3⟩⟩

/-- Inserting an element into a list and filtering by an exact key value is
the same as consing then filtering: the elements skipped over by the ordered
insertion all have strictly larger keys. -/
theorem filter_orderedInsert_key (t : Int) (a : Snapshot) :
    ∀ l : List Snapshot,
      (l.orderedInsert staleAfter a).filter
          (fun s => decide (s.last_meaningful_update = t))
        = (a :: l).filter (fun s => decide (s.last_meaningful_update = t))
  | [] => rfl
  | b :: l => by
    by_cases hab : staleAfter a b
    · have hoi : (b :: l).orderedInsert staleAfter a = a :: b :: l := by
        simp [List.orderedInsert, hab]
      rw [hoi]
    · have hlt : a.last_meaningful_update < b.last_meaningful_update := by
        simp only [staleAfter, not_le] at hab
        exact hab
      have hoi : (b :: l).orderedInsert staleAfter a
          = b :: l.orderedInsert staleAfter a := by
        simp [List.orderedInsert, hab]
      rw [hoi]
      simp only [List.filter_cons]
      rw [filter_orderedInsert_key t a l]
      simp only [List.filter_cons]
      rcases Decidable.em (b.last_meaningful_update = t) with hb | hb <;>
        rcases Decidable.em (a.last_meaningful_update = t) with ha | ha
      · exfalso; omega
      · simp [hb, ha]
      · simp [hb, ha]
      · simp [hb, ha]

/-- The stable sort leaves the subsequence at each exact key value
untouched: equal-key snapshots keep their original relative order. -/
theorem filter_sortResults (t : Int) (l : List Snapshot) :
    (sortResults l).filter (fun s => decide (s.last_meaningful_update = t))
      = l.filter (fun s => decide (s.last_meaningful_update = t)) := by
  induction l with
  | nil => rfl
  | cons a l ih =>
    have hstep : sortResults (a :: l)
        = (sortResults l).orderedInsert staleAfter a := rfl
    rw [hstep, filter_orderedInsert_key]
    simp [List.filter_cons, ih]

/-- Claim C6: the result-set sort is a permutation of its input, sorted
descending by `last_meaningful_update`, and stable: for every timestamp the
snapshots carrying it appear in the output in their original input order
(therefore the output is a function of the input alone). -/
theorem C6_stable_sort (results : List Snapshot) :
    (sortResults results).Perm results
    ∧ List.Sorted staleAfter (sortResults results)
    ∧ (sortResults results).Pairwise
        (fun a b => b.last_meaningful_update ≤ a.last_meaningful_update)
    ∧ ∀ t : Int,
        (sortResults results).filter (fun s => decide (s.last_meaningful_update = t))
          = results.filter (fun s => decide (s.last_meaningful_update = t)) :=
  ⟨List.perm_insertionSort _ _, List.sorted_insertionSort _ _,
   (List.sorted_insertionSort staleAfter results).imp (fun h => h),
   fun t => filter_sortResults t results⟩

/-- The resolver's loop body, per name: append the first-match resolution,
or collect the name as unresolved. -/
theorem resolveStep_eq (m : FieldMapping) (acc : List Str × List Str)
    (field : Str) :
    resolveStep m acc field
      = match resolveOne m field with
        | some r => (acc.1 ++ [r], acc.2)
        | none => (acc.1, acc.2 ++ [field]) := by
  unfold resolveStep resolveOne
  cases h1 : mapGet m field
  · cases h2 : mapGet m (toLowerStr field)
    · by_cases hc : customMarker.isPrefixOf field = true
      · simp [h1, h2, hc]
      · cases h3 : mapGet standard_fields (toLowerStr field) <;>
          simp [h1, h2, hc, h3]
    · simp [h1, h2]
  · simp [h1]

/-- The resolver fold accumulates exactly the per-name resolutions (in
order) and the per-name misses (in order). -/
theorem foldl_resolveStep_eq (m : FieldMapping) :
    ∀ (fields : List Str) (acc : List Str × List Str),
      fields.foldl (resolveStep m) acc
        = (acc.1 ++ fields.filterMap (resolveOne m),
           acc.2 ++ fields.filter (fun f => (resolveOne m f).isNone))
  | [], acc => by simp
  | f :: fs, acc => by
    rw [List.foldl_cons, resolveStep_eq]
    cases hr : resolveOne m f
    · simp only [hr]
      rw [foldl_resolveStep_eq m fs]
      simp [List.filterMap_cons, List.filter_cons, hr]
    · simp only [hr]
      rw [foldl_resolveStep_eq m fs]
      simp [List.filterMap_cons, List.filter_cons, hr]

/-- Claim C4 (counterexample): the source accepts any name starting with the
custom-field marker verbatim, without requiring trailing digits:
`customfield_abc` resolves to itself (empty cached mapping), while the
claim's step three — marker followed by digits — rejects it, which by steps
four and five would leave it unresolved. -/
theorem C4_counterexample :
    _resolve_field_identifiers [] ["customfield_abc".data]
        = (["customfield_abc".data], [])
    ∧ (_resolve_field_identifiers [] ["customfield_abc".data]).2
        ≠ ["customfield_abc".data]
    ∧ resolveOneClaimed [] "customfield_abc".data = none :=
  ⟨by decide, by decide, by decide⟩

/-- Claim C4 (amended): resolution processes each requested name through the
first-match-wins chain — exact match, case-insensitive match, verbatim
acceptance of any name starting with the custom-field marker (regardless of
what follows), case-insensitive standard-alias lookup — appending the
resolutions in order, and collecting the names resolving to nothing, in
order, as the unresolved warning list while exclusion continues with the
names that did resolve. -/
theorem C4_resolution_order (m : FieldMapping) (exclude_fields : List Str) :
    (_resolve_field_identifiers m exclude_fields).1
        = exclude_fields.filterMap (resolveOne m)
    ∧ (_resolve_field_identifiers m exclude_fields).2
        = exclude_fields.filter (fun f => (resolveOne m f).isNone) := by
  unfold _resolve_field_identifiers
  rw [foldl_resolveStep_eq]
  simp

/-- Claim C3 (counterexample): after a failed catalog fetch (mapping
degraded to empty) the requested name `status` still resolves through the
built-in alias table, so the unresolved list is empty — not every requested
name becomes unresolved, and the exclusion set is not empty. -/
theorem C3_counterexample :
    _resolve_field_identifiers (_get_field_mapping (.error "boom".data) none).1
        ["status".data] = (["status".data], [])
    ∧ (_resolve_field_identifiers (_get_field_mapping (.error "boom".data) none).1
        ["status".data]).2 ≠ ["status".data] :=
  ⟨by decide, by decide⟩

/-- Claim C3 (amended): when the catalog fetch fails the mapping degrades to
the empty mapping and the run proceeds without aborting; every requested
name that neither starts with the custom-field marker nor case-insensitively
matches the built-in standard-alias table is returned as unresolved. -/
theorem C3_degraded_fetch (err : Str) (exclude_fields : List Str) :
    (_get_field_mapping (.error err) none).1 = []
    ∧ (∀ field ∈ exclude_fields,
        ¬ customMarker.isPrefixOf field = true →
        mapGet standard_fields (toLowerStr field) = none →
        field ∈ (_resolve_field_identifiers
            (_get_field_mapping (.error err) none).1 exclude_fields).2) := by
  refine ⟨rfl, ?_⟩
  intro field hf hcm hstd
  have hres : resolveOne [] field = none := by
    unfold resolveOne
    rw [hstd]
    simp [mapGet, hcm]
  show field ∈ (_resolve_field_identifiers [] exclude_fields).2
  unfold _resolve_field_identifiers
  rw [foldl_resolveStep_eq]
  simp only [List.nil_append]
  rw [List.mem_filter]
  exact ⟨hf, by simp [hres]⟩

/-- Witness for C3 at a concrete failed fetch and a concrete name that
matches neither the custom-field marker nor the alias table. -/
theorem C3_degraded_fetch_witness :
    "Story Points".data ∈ (_resolve_field_identifiers
        (_get_field_mapping (.error "boom".data) none).1
        ["Story Points".data]).2 :=
  (C3_degraded_fetch "boom".data ["Story Points".data]).2
    "Story Points".data (by decide) (by decide) (by decide)

/-- Processing one catalog field preserves the invariant that every
custom-marked value of the mapping is reachable as a key bound to itself,
provided the field's display name (in both spellings) does not carry the
custom-field marker. -/
theorem mapGet_addField_self (f : JiraField)
    (h1 : ¬ customMarker.isPrefixOf f.name = true)
    (h2 : ¬ customMarker.isPrefixOf (toLowerStr f.name) = true)
    (m : FieldMapping)
    (hm : ∀ p ∈ m, customMarker.isPrefixOf p.2 = true → mapGet m p.2 = some p.2) :
    ∀ p ∈ addField m f, customMarker.isPrefixOf p.2 = true →
      mapGet (addField m f) p.2 = some p.2 := by
  rintro ⟨pk, pv⟩ hp hpfx
  simp only at hpfx
  unfold addField at hp ⊢
  by_cases hc : customMarker.isPrefixOf f.id = true
  · rw [if_pos hc] at hp ⊢
    simp only [List.mem_cons, Prod.mk.injEq] at hp
    by_cases hid : pv = f.id
    · subst hid
      simp [mapGet]
    · have hpm : (pk, pv) ∈ m := by
        rcases hp with h | h | h | h
        · exact absurd h.2 hid
        · exact absurd h.2 hid
        · exact absurd h.2 hid
        · exact h
      have hne1 : ¬ (f.id = pv) := fun he => hid he.symm
      have hne2 : ¬ (toLowerStr f.name = pv) := fun he => h2 (by rw [he]; exact hpfx)
      have hne3 : ¬ (f.name = pv) := fun he => h1 (by rw [he]; exact hpfx)
      simp only [mapGet]
      rw [if_neg hne1, if_neg hne2, if_neg hne3]
      exact hm (pk, pv) hpm hpfx
  · rw [if_neg hc] at hp ⊢
    simp only [List.mem_cons, Prod.mk.injEq] at hp
    have hpm : (pk, pv) ∈ m := by
      rcases hp with h | h | h
      · rw [h.2] at hpfx; exact absurd hpfx hc
      · rw [h.2] at hpfx; exact absurd hpfx hc
      · exact h
    have hne2 : ¬ (toLowerStr f.name = pv) := fun he => h2 (by rw [he]; exact hpfx)
    have hne3 : ¬ (f.name = pv) := fun he => h1 (by rw [he]; exact hpfx)
    simp only [mapGet]
    rw [if_neg hne2, if_neg hne3]
    exact hm (pk, pv) hpm hpfx

/-- The invariant of `mapGet_addField_self` carried through the whole
catalog fold. -/
theorem buildFieldMapping_self : ∀ (fields : List JiraField) (m : FieldMapping),
    (∀ f ∈ fields, ¬ customMarker.isPrefixOf f.name = true
      ∧ ¬ customMarker.isPrefixOf (toLowerStr f.name) = true) →
    (∀ p ∈ m, customMarker.isPrefixOf p.2 = true → mapGet m p.2 = some p.2) →
    ∀ p ∈ fields.foldl addField m, customMarker.isPrefixOf p.2 = true →
      mapGet (fields.foldl addField m) p.2 = some p.2
  | [], _, _, hm => hm
  | f :: fs, m, hn, hm => by
    rw [List.foldl_cons]
    exact buildFieldMapping_self fs (addField m f)
      (fun g hg => hn g (List.mem_cons_of_mem f hg))
      (mapGet_addField_self f (hn f (List.mem_cons_self f fs)).1
        (hn f (List.mem_cons_self f fs)).2 m hm)

/-- Claim C5 (counterexample): for a standard field whose identifier
(`issuelinks`) differs from both spellings of its display name
(`Linked Issues`), the identifier occurs as a value of the constructed
mapping but is not present as a key at all. -/
theorem C5_counterexample :
    mapGet (buildFieldMapping [⟨"issuelinks".data, "Linked Issues".data⟩])
        "Linked Issues".data = some "issuelinks".data
    ∧ mapGet (buildFieldMapping [⟨"issuelinks".data, "Linked Issues".data⟩])
        "issuelinks".data = none :=
  ⟨by decide, by decide⟩

/-- Claim C5 (amended): lookup in the constructed mapping is single-valued;
provided no display name carries the custom-field marker, every CUSTOM-field
identifier occurring as a value is also present as a key mapping to itself
(standard-field identifiers are keys only when they coincide with a
display-name spelling); and the mapping is built at most once — after the
first access, every later access returns the very same mapping and state. -/
theorem C5_mapping_invariant (fields : List JiraField)
    (fetch1 fetch2 : Except Str (List JiraField)) :
    (∀ k v1 v2, mapGet (buildFieldMapping fields) k = some v1 →
        mapGet (buildFieldMapping fields) k = some v2 → v1 = v2)
    ∧ ((∀ f ∈ fields, ¬ customMarker.isPrefixOf f.name = true
          ∧ ¬ customMarker.isPrefixOf (toLowerStr f.name) = true) →
        ∀ p ∈ buildFieldMapping fields, customMarker.isPrefixOf p.2 = true →
          mapGet (buildFieldMapping fields) p.2 = some p.2)
    ∧ (∀ (m : FieldMapping) (st : Option FieldMapping),
        _get_field_mapping fetch1 none = (m, st) →
        _get_field_mapping fetch2 st = (m, st)) := by
  refine ⟨?_, ?_, ?_⟩
  · intro k v1 v2 hv1 hv2
    rw [hv1] at hv2
    exact Option.some.inj hv2
  · intro hn
    exact buildFieldMapping_self fields [] hn
      (fun p hp => absurd hp (List.not_mem_nil p))
  · intro m st h1
    cases fetch1 with
    | ok fs =>
      simp only [_get_field_mapping] at h1
      injection h1 with hm hst
      subst hm
      subst hst
      simp [_get_field_mapping]
    | error e =>
      simp only [_get_field_mapping] at h1
      injection h1 with hm hst
      subst hm
      subst hst
      simp [_get_field_mapping]

/-- Witness for C5: a one-field custom catalog, its identifier self-mapped,
and a second access returning the cached mapping unchanged. -/
theorem C5_mapping_invariant_witness :
    mapGet (buildFieldMapping [⟨"customfield_10001".data, "Story Points".data⟩])
        "customfield_10001".data = some "customfield_10001".data
    ∧ _get_field_mapping (.error "again".data)
        (some (buildFieldMapping [⟨"customfield_10001".data, "Story Points".data⟩]))
      = (buildFieldMapping [⟨"customfield_10001".data, "Story Points".data⟩],
         some (buildFieldMapping [⟨"customfield_10001".data, "Story Points".data⟩])) :=
  ⟨(C5_mapping_invariant [⟨"customfield_10001".data, "Story Points".data⟩]
        (.ok [⟨"customfield_10001".data, "Story Points".data⟩])
        (.error "again".data)).2.1
      (by decide)
      ("customfield_10001".data, "customfield_10001".data) (by decide) (by decide),
   (C5_mapping_invariant [⟨"customfield_10001".data, "Story Points".data⟩]
        (.ok [⟨"customfield_10001".data, "Story Points".data⟩])
        (.error "again".data)).2.2
      (buildFieldMapping [⟨"customfield_10001".data, "Story Points".data⟩])
      (some (buildFieldMapping [⟨"customfield_10001".data, "Story Points".data⟩]))
      rfl⟩

/-- Evaluation of `parse_since_date` when the relative-date grammar
matches (ISO parsing having failed). -/
theorem parse_since_date_relative (fallback : Str → Option PyDateTime)
    (now : PyDateTime) (s : Str) (n : Nat) (u : Str) (d : RelativeDelta)
    (hne : s ≠ []) (hiso : fromisoformat s = none)
    (hrel : matchRelative (toLowerStr s) = some (n, u))
    (hud : unitDelta u n = some d) :
    parse_since_date fallback now s = .ok (subDelta now d) := by
  unfold parse_since_date
  rw [if_neg hne, hiso, hrel]
  simp only [hud]

/-- Evaluation of `parse_since_date` when strict ISO parsing succeeds. -/
theorem parse_since_date_iso (fallback : Str → Option PyDateTime)
    (now : PyDateTime) (s : Str) (hne : s ≠ [])
    (dt : PyDateTime) (hiso : fromisoformat s = some dt) :
    parse_since_date fallback now s = .ok (toInstant dt) := by
  unfold parse_since_date
  rw [if_neg hne, hiso]

/-- Evaluation of `parse_since_date` when only the free-form fallback
succeeds. -/
theorem parse_since_date_fb (fallback : Str → Option PyDateTime)
    (now : PyDateTime) (s : Str) (hne : s ≠ [])
    (hiso : fromisoformat s = none)
    (hrel : matchRelative (toLowerStr s) = none)
    (dt : PyDateTime) (hfs : fallback s = some dt) :
    parse_since_date fallback now s = .ok (toInstant dt) := by
  unfold parse_since_date
  rw [if_neg hne, hiso, hrel, hfs]

/-- Evaluation of `parse_since_date` when all three strategies fail: the
error message carries the original input between quotes. -/
theorem parse_since_date_fail (fallback : Str → Option PyDateTime)
    (now : PyDateTime) (s : Str) (hne : s ≠ [])
    (hiso : fromisoformat s = none)
    (hrel : matchRelative (toLowerStr s) = none) (hfs : fallback s = none) :
    parse_since_date fallback now s
      = .error ("Could not parse date \x27".data ++ s
          ++ "\x27. Use formats like \x27YYYY-MM-DD\x27, \x274 weeks ago\x27, or \x272 years ago\x27.".data) := by
  unfold parse_since_date
  rw [if_neg hne, hiso, hrel, hfs]

/-- Claim C7: evaluated at the same instant, parsing `2 weeks ago` yields
exactly 14 days (in seconds) before the current UTC now, for every now;
`an hour ago` parses identically to `1 hour ago` (the words a/an mean 1);
and month subtraction is calendar-aware: one month before 2024-03-15 lies 29
days earlier while one month before 2024-02-15 lies 31 days earlier — not a
fixed day count. -/
theorem C7_relative_dates (now : PyDateTime) (fallback : Str → Option PyDateTime) :
    parse_since_date fallback now "2 weeks ago".data
      = .ok (toInstant now - 14 * 86400)
    ∧ parse_since_date fallback now "an hour ago".data
        = parse_since_date fallback now "1 hour ago".data
    ∧ parse_since_date fallback ⟨2024, 3, 15, 0, 0, 0⟩ "1 month ago".data
        = .ok (toInstant ⟨2024, 3, 15, 0, 0, 0⟩ - 29 * 86400)
    ∧ parse_since_date fallback ⟨2024, 2, 15, 0, 0, 0⟩ "1 month ago".data
        = .ok (toInstant ⟨2024, 2, 15, 0, 0, 0⟩ - 31 * 86400) := by
  refine ⟨?_, ?_, ?_, ?_⟩
  · rw [parse_since_date_relative fallback now "2 weeks ago".data 2 "week".data
        (.fixed (14 * 86400)) (by decide) (by decide) (by decide) (by decide)]
    rfl
  · rw [parse_since_date_relative fallback now "an hour ago".data 1 "hour".data
        (.fixed 3600) (by decide) (by decide) (by decide) (by decide),
      parse_since_date_relative fallback now "1 hour ago".data 1 "hour".data
        (.fixed 3600) (by decide) (by decide) (by decide) (by decide)]
  · rw [parse_since_date_relative fallback ⟨2024, 3, 15, 0, 0, 0⟩
        "1 month ago".data 1 "month".data (.months 1)
        (by decide) (by decide) (by decide) (by decide)]
    exact congrArg Except.ok (by decide)
  · rw [parse_since_date_relative fallback ⟨2024, 2, 15, 0, 0, 0⟩
        "1 month ago".data 1 "month".data (.months 1)
        (by decide) (by decide) (by decide) (by decide)]
    exact congrArg Except.ok (by decide)

/-- Every unit word of the grammar has a delta: the raising `else` branch of
the unit dispatch is unreachable from a grammar match. -/
theorem unitDelta_isSome_of_mem (u : Str) (n : Nat) (hu : u ∈ timeUnits) :
    ∃ d, unitDelta u n = some d := by
  fin_cases hu <;> exact ⟨_, rfl⟩

/-- A successful grammar match always yields one of the seven unit words. -/
theorem matchRelative_unit_mem {s : Str} {n : Nat} {u : Str}
    (h : matchRelative s = some (n, u)) : u ∈ timeUnits := by
  unfold matchRelative at h
  split at h
  · split at h
    · split at h
      · obtain ⟨u', hfind, hequ⟩ := Option.map_eq_some'.mp h
        unfold matchUnitPlural at hfind
        simp only [Prod.mk.injEq] at hequ
        obtain ⟨-, h2⟩ := hequ
        subst h2
        exact List.mem_of_find?_eq_some hfind
      · split at h
        · obtain ⟨u', hfind, hequ⟩ := Option.map_eq_some'.mp h
          unfold matchUnit at hfind
          simp only [Prod.mk.injEq] at hequ
          obtain ⟨-, h2⟩ := hequ
          subst h2
          exact List.mem_of_find?_eq_some hfind
        · exact absurd h (by simp)
    · exact absurd h (by simp)
  · exact absurd h (by simp)

/-- Claim C8: parsing fails exactly when the strict ISO parse, the
relative-date grammar and the free-form fallback all fail (given that the
fallback rejects the empty string, as the free-form parser does); every
failure's message carries the original input text; and a failing `--since`
bound makes the run exit with status 1, no range filtering applied. -/
theorem C8_parse_failure (fallback : Str → Option PyDateTime) (now : PyDateTime)
    (since_str : Str) (hfb : fallback [] = none) :
    ((∃ e, parse_since_date fallback now since_str = .error e) ↔
      (fromisoformat since_str = none
        ∧ matchRelative (toLowerStr since_str) = none
        ∧ fallback since_str = none))
    ∧ (∀ e, parse_since_date fallback now since_str = .error e →
        since_str.IsInfix e)
    ∧ (∀ (issues : List Snapshot) (before_arg : Option Str) (e : Str),
        parse_since_date fallback now since_str = .error e →
        applyDateFilters fallback now issues (some since_str) before_arg
          = .error 1) := by
  by_cases hs : since_str = []
  · subst hs
    refine ⟨⟨fun _ => ⟨rfl, rfl, hfb⟩, fun _ => ⟨_, rfl⟩⟩, ?_, ?_⟩
    · intro e _
      exact List.nil_infix
    · intro issues b e _
      simp [applyDateFilters, parse_since_date]
  · have main : ∀ e, parse_since_date fallback now since_str = .error e →
        (fromisoformat since_str = none
          ∧ matchRelative (toLowerStr since_str) = none
          ∧ fallback since_str = none) := by
      intro e he
      cases hiso : fromisoformat since_str with
      | some dt =>
        rw [parse_since_date_iso fallback now since_str hs dt hiso] at he
        exact Except.noConfusion he
      | none =>
        cases hrel : matchRelative (toLowerStr since_str) with
        | some au =>
          obtain ⟨nn, uu⟩ := au
          obtain ⟨d, hd⟩ :=
            unitDelta_isSome_of_mem uu nn (matchRelative_unit_mem hrel)
          rw [parse_since_date_relative fallback now since_str nn uu d
              hs hiso hrel hd] at he
          exact Except.noConfusion he
        | none =>
          cases hfs : fallback since_str with
          | some dt =>
            rw [parse_since_date_fb fallback now since_str hs hiso hrel dt hfs] at he
            exact Except.noConfusion he
          | none => exact ⟨rfl, rfl, rfl⟩
    refine ⟨?_, ?_, ?_⟩
    · constructor
      · rintro ⟨e, he⟩
        exact main e he
      · rintro ⟨hiso, hrel, hfs⟩
        exact ⟨_, parse_since_date_fail fallback now since_str hs hiso hrel hfs⟩
    · intro e he
      obtain ⟨hiso, hrel, hfs⟩ := main e he
      rw [parse_since_date_fail fallback now since_str hs hiso hrel hfs] at he
      injection he with hme
      subst hme
      exact ⟨"Could not parse date \x27".data,
        "\x27. Use formats like \x27YYYY-MM-DD\x27, \x274 weeks ago\x27, or \x272 years ago\x27.".data,
        rfl⟩
    · intro issues b e he
      simp [applyDateFilters, he]

/-- Witness for C8: a concrete unparseable `--since` bound makes the filter
slice of main exit with status 1 without touching the issue list. -/
theorem C8_parse_failure_witness :
    applyDateFilters (fun _ => none) ⟨2024, 1, 1, 0, 0, 0⟩ []
        (some "garbage".data) none = .error 1 :=
  (C8_parse_failure (fun _ => none) ⟨2024, 1, 1, 0, 0, 0⟩ "garbage".data rfl).2.2
    [] none
    ("Could not parse date \x27garbage\x27. Use formats like \x27YYYY-MM-DD\x27, \x274 weeks ago\x27, or \x272 years ago\x27.".data)
    (by rfl)

/-- Claim C10: `parse_since_date` rejects the empty (falsy) input with the
exact message `Empty date string` for every current time and every fallback
parser — even one that would accept the empty string — i.e. before any of
the three parsing strategies is attempted. -/
theorem C10_empty_input (fallback : Str → Option PyDateTime) (now : PyDateTime) :
    parse_since_date fallback now [] = .error "Empty date string".data := rfl
